import Mathlib

/-!
Shallow embedding of the machinery worker module (v1/worker.go).

External collaborators (the broker, the result backend, the task registry,
argument binding, the wall clock) are modelled by an environment `Env`
recording the outcome of each external call; the per-message processor is a
pure function from the environment and the delivered signature to the trace
of externally visible effects (backend state writes, publishes, the chord
compare-and-set, group-meta purges) together with the value returned to the
broker adapter.
-/

namespace Machinery

/-- An argument of a task invocation: tasks.Arg, a type tag and a value. -/
structure Arg where
  type : String
  value : String
deriving DecidableEq

/-- A typed return value of a task invocation: tasks.TaskResult. -/
structure TaskResult where
  type : String
  value : String
deriving DecidableEq

/-- The per-task state names of the result backend. -/
inductive TaskStateName where
  | pending
  | received
  | started
  | success
  | failure
  | retry
deriving DecidableEq

/-- A per-UUID state row of the result backend: backends.TaskState. -/
structure TaskState where
  state : TaskStateName
  results : List TaskResult
deriving DecidableEq

/-- backends.TaskState.IsSuccess: the row is in SUCCESS state. -/
def TaskState.IsSuccess (t : TaskState) : Bool :=
  t.state == TaskStateName.success

/-- tasks.Signature: the unit of work delivered by the broker.  Successor
signatures (OnSuccess, OnError, ChordCallback) are signatures themselves,
hence the nested inductive. -/
inductive Signature where
  | mk (uuid : String) (name : String) (args : List Arg) (retryCount : Int)
      (retryTimeout : Nat) (eta : Option Int) (immutable : Bool) (groupUUID : String)
      (groupTaskCount : Int) (onSuccess : List Signature) (onError : List Signature)
      (chordCallback : Option Signature)

def Signature.uuid : Signature → String
  | .mk u _ _ _ _ _ _ _ _ _ _ _ => u

def Signature.name : Signature → String
  | .mk _ n _ _ _ _ _ _ _ _ _ _ => n

def Signature.args : Signature → List Arg
  | .mk _ _ a _ _ _ _ _ _ _ _ _ => a

def Signature.retryCount : Signature → Int
  | .mk _ _ _ rc _ _ _ _ _ _ _ _ => rc

def Signature.retryTimeout : Signature → Nat
  | .mk _ _ _ _ rt _ _ _ _ _ _ _ => rt

def Signature.eta : Signature → Option Int
  | .mk _ _ _ _ _ e _ _ _ _ _ _ => e

def Signature.immutable : Signature → Bool
  | .mk _ _ _ _ _ _ i _ _ _ _ _ => i

def Signature.groupUUID : Signature → String
  | .mk _ _ _ _ _ _ _ g _ _ _ _ => g

def Signature.groupTaskCount : Signature → Int
  | .mk _ _ _ _ _ _ _ _ gc _ _ _ => gc

def Signature.onSuccess : Signature → List Signature
  | .mk _ _ _ _ _ _ _ _ _ os _ _ => os

def Signature.onError : Signature → List Signature
  | .mk _ _ _ _ _ _ _ _ _ _ oe _ => oe

def Signature.chordCallback : Signature → Option Signature
  | .mk _ _ _ _ _ _ _ _ _ _ _ cc => cc

/-- Replace the argument list of a signature (models mutation of `.Args`). -/
def Signature.withArgs : Signature → List Arg → Signature
  | .mk u n _ rc rt e i g gc os oe cc, a => .mk u n a rc rt e i g gc os oe cc

/-- Set the retry bookkeeping fields of a signature (models the three
mutations performed by taskRetry). -/
def Signature.withRetryFields : Signature → Int → Nat → Option Int → Signature
  | .mk u n a _ _ _ i g gc os oe cc, rc, rt, e => .mk u n a rc rt e i g gc os oe cc

/-- tasks.Arg built from a tasks.TaskResult, as in the callback fan-out. -/
def resultToArg (r : TaskResult) : Arg := Arg.mk r.type r.value

/-- Fibonacci walk: advance the pair `(a, b)` of consecutive Fibonacci
numbers until `a` exceeds `cur`; the fuel argument makes the recursion
structural and is chosen large enough that it is never exhausted. -/
def fibNextAux : Nat → Nat → Nat → Nat → Nat
  | 0, a, _, _ => a
  | fuel + 1, a, b, cur => if cur < a then a else fibNextAux fuel b (a + b) cur

/-- Modelled from the spec: `retry.FibonacciNext` of the v1/retry package is
not part of the worker source file under verification; the spec defines it as
the pure total function on non-negative integers returning, for `cur = 0`,
`1`, and otherwise the next Fibonacci number strictly greater than `cur`. -/
def FibonacciNext (cur : Nat) : Nat := fibNextAux (cur + 2) 1 1 cur

/-- Outcomes of the external collaborators consulted while processing one
delivery: the registry, the result backend, argument binding, the task call,
the wall clock and the server publish path.  An `Option String` field is the
error returned by the corresponding call (`none` = success); an
`Except String` field is the value or error of a query. -/
structure Env where
  isTaskRegistered : Bool
  getRegisteredTaskOk : Bool
  setStateReceivedErr : Option String
  setStateStartedErr : Option String
  setStateRetryErr : Option String
  setStateSuccessErr : Option String
  setStateFailureErr : Option String
  bindErr : Option String
  callResult : Except String (List TaskResult)
  now : Int
  sendTaskErr : Option String
  groupCompleted : Except String Bool
  hasAMQPBackend : Bool
  triggerChord : Except String Bool
  groupTaskStates : Except String (List TaskState)

/-- The error value the processor returns to the broker adapter, tagged by
the failing call it wraps (mirroring the fmt.Errorf wrappers). -/
inductive ProcessError where
  | setStateReceived (msg : String)
  | setStateStarted (msg : String)
  | bind (msg : String)
  | setStateRetry (msg : String)
  | sendTask (msg : String)
  | setStateSuccess (msg : String)
  | groupCompleted (msg : String)
  | triggerChord (msg : String)
  | setStateFailure (msg : String)
deriving DecidableEq

/-- Externally visible effects of processing one delivery: backend writes
(recorded at the call, whether or not the backend reports an error), the
publishes issued through the server, the chord compare-and-set, and the
group-meta purge.  Publish events are tagged by their call site in the
source. -/
inductive Event where
  | setStateReceived (uuid : String)
  | setStateStarted (uuid : String)
  | setStateRetry (uuid : String)
  | setStateSuccess (uuid : String) (results : List TaskResult)
  | setStateFailure (uuid : String) (errMsg : String)
  | sendRetry (sig : Signature)
  | sendSuccessCallback (sig : Signature)
  | sendErrorCallback (sig : Signature)
  | sendChord (sig : Signature)
  | triggerChordCAS (groupUUID : String)
  | purgeGroupMeta (groupUUID : String)

/-- The backend state write performed by an event, if any. -/
def Event.stateWrite : Event → Option TaskStateName
  | .setStateReceived _ => some .received
  | .setStateStarted _ => some .started
  | .setStateRetry _ => some .retry
  | .setStateSuccess _ _ => some .success
  | .setStateFailure _ _ => some .failure
  | _ => none

/-- The sequence of backend state writes in a trace. -/
def stateWrites (tr : List Event) : List TaskStateName :=
  tr.filterMap Event.stateWrite

def Event.isSendChord : Event → Bool
  | .sendChord _ => true
  | _ => false

def Event.isSendRetry : Event → Bool
  | .sendRetry _ => true
  | _ => false

def Event.isTriggerChordCAS : Event → Bool
  | .triggerChordCAS _ => true
  | _ => false

/-- Number of chord-callback publishes in a trace. -/
def countChord : List Event → Nat
  | [] => 0
  | e :: rest => (if e.isSendChord then 1 else 0) + countChord rest

/-- Number of retry republishes in a trace. -/
def countSendRetry : List Event → Nat
  | [] => 0
  | e :: rest => (if e.isSendRetry then 1 else 0) + countSendRetry rest

/-- Whether a trace contains a TriggerChord compare-and-set. -/
def hasCAS (tr : List Event) : Bool :=
  tr.any Event.isTriggerChordCAS

/-- The signatures published as success callbacks in a trace, in order. -/
def successSends (tr : List Event) : List Signature :=
  tr.filterMap fun e =>
    match e with
    | .sendSuccessCallback s => some s
    | _ => none

/-- The signatures published as error callbacks in a trace, in order. -/
def errorSends (tr : List Event) : List Signature :=
  tr.filterMap fun e =>
    match e with
    | .sendErrorCallback s => some s
    | _ => none

/-- The OnError fan-out of taskFailed: each error successor is published
with the error message prepended as a string argument. -/
def errorCallbackEvents (signature : Signature) (taskErr : String) : List Event :=
  signature.onError.map fun errorTask =>
    Event.sendErrorCallback (errorTask.withArgs (Arg.mk "string" taskErr :: errorTask.args))

/-- Worker.taskFailed: write FAILURE, then fan out OnError callbacks
(publish errors of the callbacks are ignored). -/
def taskFailed (env : Env) (signature : Signature) (taskErr : String) :
    List Event × Option ProcessError :=
  match env.setStateFailureErr with
  | some e => ([Event.setStateFailure signature.uuid taskErr], some (ProcessError.setStateFailure e))
  | none =>
    (Event.setStateFailure signature.uuid taskErr :: errorCallbackEvents signature taskErr, none)

/-- Worker.taskRetry: write RETRY, decrement RetryCount, advance
RetryTimeout by the Fibonacci successor, set ETA = now + RetryTimeout (the
clock reading is `env.now`, in seconds), republish the signature. -/
def taskRetry (env : Env) (signature : Signature) : List Event × Option ProcessError :=
  match env.setStateRetryErr with
  | some e => ([Event.setStateRetry signature.uuid], some (ProcessError.setStateRetry e))
  | none =>
    let newTimeout := FibonacciNext signature.retryTimeout
    let sig2 := signature.withRetryFields (signature.retryCount - 1) newTimeout
      (some (env.now + (newTimeout : Int)))
    ([Event.setStateRetry signature.uuid, Event.sendRetry sig2],
      (env.sendTaskErr).map ProcessError.sendTask)

/-- The OnSuccess fan-out of taskSucceeded: each success successor is
published, with the parent's results appended to its arguments unless the
parent is immutable. -/
def successCallbackEvents (signature : Signature) (taskResults : List TaskResult) : List Event :=
  signature.onSuccess.map fun successTask =>
    Event.sendSuccessCallback
      (if signature.immutable then successTask
       else successTask.withArgs (successTask.args ++ taskResults.map resultToArg))

/-- The chord gathering loop of taskSucceeded: walk the group's task states;
return `none` as soon as a non-SUCCESS member is found, otherwise thread the
chord callback through, appending each member's results to its arguments
unless the callback is immutable. -/
def gatherChord (cb : Signature) : List TaskState → Option Signature
  | [] => some cb
  | taskState :: rest =>
    if taskState.IsSuccess then
      gatherChord
        (if cb.immutable then cb
         else cb.withArgs (cb.args ++ taskState.results.map resultToArg)) rest
    else none

/-- Worker.taskSucceeded: write SUCCESS, fan out OnSuccess callbacks, then
run the group/chord coordination: completion check, deferred group-meta
purge for AMQP backends, the TriggerChord compare-and-set, gathering of the
group's states, and the chord publish. -/
def taskSucceeded (env : Env) (signature : Signature) (taskResults : List TaskResult) :
    List Event × Option ProcessError :=
  match env.setStateSuccessErr with
  | some e =>
    ([Event.setStateSuccess signature.uuid taskResults], some (ProcessError.setStateSuccess e))
  | none =>
    let base := Event.setStateSuccess signature.uuid taskResults ::
      successCallbackEvents signature taskResults
    if signature.groupUUID = "" then (base, none)
    else
      match env.groupCompleted with
      | Except.error e => (base, some (ProcessError.groupCompleted e))
      | Except.ok false => (base, none)
      | Except.ok true =>
        let purge :=
          if env.hasAMQPBackend then [Event.purgeGroupMeta signature.groupUUID] else []
        match signature.chordCallback with
        | none => (base ++ purge, none)
        | some cb =>
          match env.triggerChord with
          | Except.error e =>
            (base ++ [Event.triggerChordCAS signature.groupUUID] ++ purge,
              some (ProcessError.triggerChord e))
          | Except.ok false =>
            (base ++ [Event.triggerChordCAS signature.groupUUID] ++ purge, none)
          | Except.ok true =>
            match env.groupTaskStates with
            | Except.error _ =>
              (base ++ [Event.triggerChordCAS signature.groupUUID] ++ purge, none)
            | Except.ok taskStates =>
              match gatherChord cb taskStates with
              | none =>
                (base ++ [Event.triggerChordCAS signature.groupUUID] ++ purge, none)
              | some cb2 =>
                (base ++ [Event.triggerChordCAS signature.groupUUID, Event.sendChord cb2]
                  ++ purge, (env.sendTaskErr).map ProcessError.sendTask)

/-- Worker.Process: the per-message processor.  Registry misses are acked
silently; a RECEIVED write precedes argument binding; a bind failure goes
straight to taskFailed and returns the bind error; a STARTED write precedes
the call; a call error retries when RetryCount is positive and fails
otherwise; a successful call runs taskSucceeded. -/
def Process (env : Env) (signature : Signature) : List Event × Option ProcessError :=
  if env.isTaskRegistered = false then ([], none)
  else if env.getRegisteredTaskOk = false then ([], none)
  else
    match env.setStateReceivedErr with
    | some e =>
      ([Event.setStateReceived signature.uuid], some (ProcessError.setStateReceived e))
    | none =>
      match env.bindErr with
      | some e =>
        (Event.setStateReceived signature.uuid :: (taskFailed env signature e).1,
          some (ProcessError.bind e))
      | none =>
        match env.setStateStartedErr with
        | some e =>
          ([Event.setStateReceived signature.uuid, Event.setStateStarted signature.uuid],
            some (ProcessError.setStateStarted e))
        | none =>
          match env.callResult with
          | Except.error e =>
            if signature.retryCount > 0 then
              let r := taskRetry env signature
              (Event.setStateReceived signature.uuid ::
                Event.setStateStarted signature.uuid :: r.1, r.2)
            else
              let r := taskFailed env signature e
              (Event.setStateReceived signature.uuid ::
                Event.setStateStarted signature.uuid :: r.1, r.2)
          | Except.ok results =>
            let r := taskSucceeded env signature results
            (Event.setStateReceived signature.uuid ::
              Event.setStateStarted signature.uuid :: r.1, r.2)

/-- A sequence of deliveries sharing one group's `ChordTriggered` flag: the
backend's TriggerChord is the compare-and-set on the flag (the caller wins
exactly when the flag was still false), and the flag becomes true once any
delivery executes the compare-and-set. -/
def runChord : Bool → List (Env × Signature) → List Event
  | _, [] => []
  | flag, (env, sig) :: rest =>
    let tr := (Process { env with triggerChord := Except.ok (!flag) } sig).1
    tr ++ runChord (flag || hasCAS tr) rest

/-! ### Projection lemmas for signature updates -/

@[simp] lemma withArgs_uuid (s : Signature) (a : List Arg) : (s.withArgs a).uuid = s.uuid := by
  cases s; rfl

@[simp] lemma withArgs_args (s : Signature) (a : List Arg) : (s.withArgs a).args = a := by
  cases s; rfl

@[simp] lemma withArgs_retryCount (s : Signature) (a : List Arg) :
    (s.withArgs a).retryCount = s.retryCount := by
  cases s; rfl

@[simp] lemma withRetryFields_uuid (s : Signature) (rc : Int) (rt : Nat) (e : Option Int) :
    (s.withRetryFields rc rt e).uuid = s.uuid := by
  cases s; rfl

@[simp] lemma withRetryFields_retryCount (s : Signature) (rc : Int) (rt : Nat) (e : Option Int) :
    (s.withRetryFields rc rt e).retryCount = rc := by
  cases s; rfl

@[simp] lemma withRetryFields_retryTimeout (s : Signature) (rc : Int) (rt : Nat) (e : Option Int) :
    (s.withRetryFields rc rt e).retryTimeout = rt := by
  cases s; rfl

@[simp] lemma withRetryFields_eta (s : Signature) (rc : Int) (rt : Nat) (e : Option Int) :
    (s.withRetryFields rc rt e).eta = e := by
  cases s; rfl

@[simp] lemma withRetryFields_args (s : Signature) (rc : Int) (rt : Nat) (e : Option Int) :
    (s.withRetryFields rc rt e).args = s.args := by
  cases s; rfl

/-! ### Trace bookkeeping lemmas -/

@[simp] lemma countChord_nil : countChord [] = 0 := rfl

@[simp] lemma countChord_cons (e : Event) (l : List Event) :
    countChord (e :: l) = (if e.isSendChord then 1 else 0) + countChord l := rfl

@[simp] lemma countChord_append (l₁ l₂ : List Event) :
    countChord (l₁ ++ l₂) = countChord l₁ + countChord l₂ := by
  induction l₁ with
  | nil => simp
  | cons e l ih => simp [ih]; omega

@[simp] lemma countSendRetry_nil : countSendRetry [] = 0 := rfl

@[simp] lemma countSendRetry_cons (e : Event) (l : List Event) :
    countSendRetry (e :: l) = (if e.isSendRetry then 1 else 0) + countSendRetry l := rfl

lemma countChord_map_eq_zero {α : Type} (f : α → Event) (l : List α)
    (h : ∀ x, (f x).isSendChord = false) : countChord (l.map f) = 0 := by
  induction l with
  | nil => rfl
  | cons x l ih => simp [h, ih]

@[simp] lemma countChord_successCallbackEvents (s : Signature) (rs : List TaskResult) :
    countChord (successCallbackEvents s rs) = 0 := by
  apply countChord_map_eq_zero
  intro x
  rfl

@[simp] lemma countChord_errorCallbackEvents (s : Signature) (e : String) :
    countChord (errorCallbackEvents s e) = 0 := by
  apply countChord_map_eq_zero
  intro x
  rfl

lemma countSendRetry_map_eq_zero {α : Type} (f : α → Event) (l : List α)
    (h : ∀ x, (f x).isSendRetry = false) : countSendRetry (l.map f) = 0 := by
  induction l with
  | nil => rfl
  | cons x l ih => simp [h, ih]

@[simp] lemma countSendRetry_errorCallbackEvents (s : Signature) (e : String) :
    countSendRetry (errorCallbackEvents s e) = 0 := by
  apply countSendRetry_map_eq_zero
  intro x
  rfl

@[simp] lemma hasCAS_nil : hasCAS [] = false := rfl

@[simp] lemma hasCAS_cons (e : Event) (l : List Event) :
    hasCAS (e :: l) = (e.isTriggerChordCAS || hasCAS l) := rfl

@[simp] lemma hasCAS_append (l₁ l₂ : List Event) :
    hasCAS (l₁ ++ l₂) = (hasCAS l₁ || hasCAS l₂) := by
  simp [hasCAS]

lemma hasCAS_map_eq_false {α : Type} (f : α → Event) (l : List α)
    (h : ∀ x, (f x).isTriggerChordCAS = false) : hasCAS (l.map f) = false := by
  induction l with
  | nil => rfl
  | cons x l ih => simp_all [hasCAS]

@[simp] lemma hasCAS_successCallbackEvents (s : Signature) (rs : List TaskResult) :
    hasCAS (successCallbackEvents s rs) = false := by
  apply hasCAS_map_eq_false
  intro x
  rfl

@[simp] lemma hasCAS_errorCallbackEvents (s : Signature) (e : String) :
    hasCAS (errorCallbackEvents s e) = false := by
  apply hasCAS_map_eq_false
  intro x
  rfl

@[simp] lemma stateWrites_nil : stateWrites [] = [] := rfl

@[simp] lemma stateWrites_cons (e : Event) (l : List Event) :
    stateWrites (e :: l) =
      match e.stateWrite with
      | some s => s :: stateWrites l
      | none => stateWrites l := by
  simp only [stateWrites, List.filterMap_cons]
  cases e <;> rfl

@[simp] lemma stateWrites_append (l₁ l₂ : List Event) :
    stateWrites (l₁ ++ l₂) = stateWrites l₁ ++ stateWrites l₂ := by
  simp [stateWrites]

lemma stateWrites_map_eq_nil {α : Type} (f : α → Event) (l : List α)
    (h : ∀ x, (f x).stateWrite = none) : stateWrites (l.map f) = [] := by
  induction l with
  | nil => rfl
  | cons x l ih => simp_all [stateWrites]

@[simp] lemma stateWrites_successCallbackEvents (s : Signature) (rs : List TaskResult) :
    stateWrites (successCallbackEvents s rs) = [] := by
  apply stateWrites_map_eq_nil
  intro x
  rfl

@[simp] lemma stateWrites_errorCallbackEvents (s : Signature) (e : String) :
    stateWrites (errorCallbackEvents s e) = [] := by
  apply stateWrites_map_eq_nil
  intro x
  rfl

@[simp] lemma successSends_nil : successSends [] = [] := rfl

@[simp] lemma successSends_cons (e : Event) (l : List Event) :
    successSends (e :: l) =
      match e with
      | .sendSuccessCallback s => s :: successSends l
      | _ => successSends l := by
  simp only [successSends, List.filterMap_cons]
  cases e <;> rfl

@[simp] lemma successSends_append (l₁ l₂ : List Event) :
    successSends (l₁ ++ l₂) = successSends l₁ ++ successSends l₂ := by
  simp [successSends]

@[simp] lemma errorSends_nil : errorSends [] = [] := rfl

@[simp] lemma errorSends_cons (e : Event) (l : List Event) :
    errorSends (e :: l) =
      match e with
      | .sendErrorCallback s => s :: errorSends l
      | _ => errorSends l := by
  simp only [errorSends, List.filterMap_cons]
  cases e <;> rfl

@[simp] lemma errorSends_append (l₁ l₂ : List Event) :
    errorSends (l₁ ++ l₂) = errorSends l₁ ++ errorSends l₂ := by
  simp [errorSends]

lemma successSends_successCallbackEvents (s : Signature) (rs : List TaskResult) :
    successSends (successCallbackEvents s rs) =
      s.onSuccess.map fun t =>
        if s.immutable then t else t.withArgs (t.args ++ rs.map resultToArg) := by
  simp only [successCallbackEvents, successSends]
  induction s.onSuccess with
  | nil => rfl
  | cons t l ih => simp_all [List.filterMap_cons]

lemma errorSends_errorCallbackEvents (s : Signature) (e : String) :
    errorSends (errorCallbackEvents s e) =
      s.onError.map fun t => t.withArgs (Arg.mk "string" e :: t.args) := by
  simp only [errorCallbackEvents, errorSends]
  induction s.onError with
  | nil => rfl
  | cons t l ih => simp_all [List.filterMap_cons]

/-! ### Fibonacci successor lemmas -/

lemma fib_add_two_ge (n : Nat) : n + 1 ≤ Nat.fib (n + 2) := by
  induction n with
  | zero =>
    show 1 ≤ Nat.fib 2
    have := Nat.fib_two
    omega
  | succ n ih =>
    show n + 2 ≤ Nat.fib (n + 3)
    have h1 : 0 < Nat.fib (n + 1) := Nat.fib_pos.mpr (by omega)
    have h2 : Nat.fib (n + 3) = Nat.fib (n + 1) + Nat.fib (n + 2) := Nat.fib_add_two
    omega

lemma fibNextAux_spec (fuel : Nat) :
    ∀ k cur : Nat, cur < Nat.fib (k + fuel) → (∀ i, i ≤ k → Nat.fib i ≤ cur) →
    ∃ m, fibNextAux fuel (Nat.fib (k + 1)) (Nat.fib (k + 2)) cur = Nat.fib m ∧
      cur < Nat.fib m ∧ ∀ i, i < m → Nat.fib i ≤ cur := by
  induction fuel with
  | zero =>
    intro k cur hfuel hprev
    have hf2 : cur < Nat.fib k := hfuel
    exact absurd hf2 (by have := hprev k le_rfl; omega)
  | succ f ih =>
    intro k cur hfuel hprev
    by_cases h : cur < Nat.fib (k + 1)
    · refine ⟨k + 1, ?_, h, ?_⟩
      · simp [fibNextAux, h]
      · intro i hi
        exact hprev i (by omega)
    · have hle : Nat.fib (k + 1) ≤ cur := by omega
      have hfuel2 : cur < Nat.fib (k + 1 + f) := by
        have hidx : k + 1 + f = k + (f + 1) := by omega
        rw [hidx]
        exact hfuel
      have hprev2 : ∀ i, i ≤ k + 1 → Nat.fib i ≤ cur := by
        intro i hi
        by_cases hik : i ≤ k
        · exact hprev i hik
        · have : i = k + 1 := by omega
          rw [this]
          exact hle
      have hrec := ih (k + 1) cur hfuel2 hprev2
      have hb : Nat.fib (k + 1) + Nat.fib (k + 2) = Nat.fib (k + 3) := by
        have h2 : Nat.fib (k + 3) = Nat.fib (k + 1) + Nat.fib (k + 2) := Nat.fib_add_two
        omega
      simp only [fibNextAux, if_neg h]
      rw [hb]
      exact hrec

lemma FibonacciNext_spec (cur : Nat) :
    ∃ m, FibonacciNext cur = Nat.fib m ∧ cur < Nat.fib m ∧ ∀ i, i < m → Nat.fib i ≤ cur := by
  have hfuel : cur < Nat.fib (0 + (cur + 2)) := by
    have hidx : 0 + (cur + 2) = cur + 2 := by omega
    rw [hidx]
    have := fib_add_two_ge cur
    omega
  have hprev : ∀ i, i ≤ 0 → Nat.fib i ≤ cur := by
    intro i hi
    have : i = 0 := by omega
    rw [this]
    simp
  exact fibNextAux_spec (cur + 2) 0 cur hfuel hprev

lemma FibonacciNext_least (cur j : Nat) (hj : cur < Nat.fib j) :
    FibonacciNext cur ≤ Nat.fib j := by
  obtain ⟨m, hm, hcur, hmin⟩ := FibonacciNext_spec cur
  by_cases h : j < m
  · exact absurd hj (by have := hmin j h; omega)
  · rw [hm]
    exact Nat.fib_mono (by omega)

lemma FibonacciNext_fib (m : Nat) (hm : 2 ≤ m) :
    FibonacciNext (Nat.fib m) = Nat.fib (m + 1) := by
  obtain ⟨m', hm', hcur, hmin⟩ := FibonacciNext_spec (Nat.fib m)
  have hlt : Nat.fib m < Nat.fib (m + 1) := Nat.fib_lt_fib_succ hm
  have hle : FibonacciNext (Nat.fib m) ≤ Nat.fib (m + 1) := FibonacciNext_least _ _ hlt
  have hmm : m < m' := by
    by_contra hc
    push_neg at hc
    have := Nat.fib_mono hc
    omega
  have hge : Nat.fib (m + 1) ≤ Nat.fib m' := Nat.fib_mono hmm
  omega

lemma FibonacciNext_iterate (k : Nat) (hk : 1 ≤ k) :
    FibonacciNext^[k] 0 = Nat.fib (k + 1) := by
  induction k with
  | zero => omega
  | succ n ih =>
    by_cases hn : n = 0
    · subst hn
      have h1 : FibonacciNext^[1] 0 = FibonacciNext 0 := by simp
      rw [h1]
      decide
    · have hn1 : 1 ≤ n := by omega
      rw [Function.iterate_succ_apply', ih hn1, FibonacciNext_fib (n + 1) (by omega)]

/-! ### Chord coordination lemmas -/

lemma gatherChord_some_all_success (sts : List TaskState) :
    ∀ cb cb', gatherChord cb sts = some cb' → ∀ st ∈ sts, st.IsSuccess = true := by
  induction sts with
  | nil =>
    intro cb cb' h st hst
    simp at hst
  | cons s rest ih =>
    intro cb cb' h st hst
    by_cases hs : s.IsSuccess = true
    · rw [List.mem_cons] at hst
      rcases hst with hst | hst
      · rw [hst]
        exact hs
      · have h2 : gatherChord
            (if cb.immutable then cb else cb.withArgs (cb.args ++ s.results.map resultToArg))
            rest = some cb' := by
          simpa [gatherChord, hs] using h
        exact ih _ cb' h2 st hst
    · simp [gatherChord, hs] at h

lemma taskSucceeded_chord_spec (env : Env) (sig : Signature) (rs : List TaskResult) :
    countChord (taskSucceeded env sig rs).1 ≤ 1 ∧
    (hasCAS (taskSucceeded env sig rs).1 = false → countChord (taskSucceeded env sig rs).1 = 0) ∧
    (0 < countChord (taskSucceeded env sig rs).1 →
      env.triggerChord = Except.ok true ∧
      ∃ sts, env.groupTaskStates = Except.ok sts ∧ ∀ st ∈ sts, st.IsSuccess = true) := by
  cases hsu : env.setStateSuccessErr with
  | some e => simp [taskSucceeded, hsu, Event.isSendChord, Event.isTriggerChordCAS]
  | none =>
    by_cases hg : sig.groupUUID = ""
    · simp [taskSucceeded, hsu, hg, Event.isSendChord, Event.isTriggerChordCAS]
    · cases hgc : env.groupCompleted with
      | error e => simp [taskSucceeded, hsu, hg, hgc, Event.isSendChord, Event.isTriggerChordCAS]
      | ok gcb =>
        cases gcb with
        | false =>
          simp [taskSucceeded, hsu, hg, hgc, Event.isSendChord, Event.isTriggerChordCAS]
        | true =>
          cases hcb : sig.chordCallback with
          | none =>
            cases hamq : env.hasAMQPBackend <;>
              simp [taskSucceeded, hsu, hg, hgc, hcb, hamq, Event.isSendChord,
                Event.isTriggerChordCAS]
          | some cb =>
            cases htc : env.triggerChord with
            | error e =>
              cases hamq : env.hasAMQPBackend <;>
                simp [taskSucceeded, hsu, hg, hgc, hcb, htc, hamq, Event.isSendChord,
                  Event.isTriggerChordCAS]
            | ok win =>
              cases win with
              | false =>
                cases hamq : env.hasAMQPBackend <;>
                  simp [taskSucceeded, hsu, hg, hgc, hcb, htc, hamq, Event.isSendChord,
                    Event.isTriggerChordCAS]
              | true =>
                cases hgts : env.groupTaskStates with
                | error e =>
                  cases hamq : env.hasAMQPBackend <;>
                    simp [taskSucceeded, hsu, hg, hgc, hcb, htc, hgts, hamq, Event.isSendChord,
                      Event.isTriggerChordCAS]
                | ok sts =>
                  cases hgather : gatherChord cb sts with
                  | none =>
                    cases hamq : env.hasAMQPBackend <;>
                      simp [taskSucceeded, hsu, hg, hgc, hcb, htc, hgts, hgather, hamq,
                        Event.isSendChord, Event.isTriggerChordCAS]
                  | some cb2 =>
                    have hall := gatherChord_some_all_success sts cb cb2 hgather
                    cases hamq : env.hasAMQPBackend <;>
                      simp [taskSucceeded, hsu, hg, hgc, hcb, htc, hgts, hgather, hamq,
                        Event.isSendChord, Event.isTriggerChordCAS] <;>
                      exact hall

lemma process_chord_cases (env : Env) (sig : Signature) :
    (countChord (Process env sig).1 = 0 ∧ hasCAS (Process env sig).1 = false) ∨
    (∃ rs, env.callResult = Except.ok rs ∧
      countChord (Process env sig).1 = countChord (taskSucceeded env sig rs).1 ∧
      hasCAS (Process env sig).1 = hasCAS (taskSucceeded env sig rs).1) := by
  cases hreg : env.isTaskRegistered with
  | false =>
    left
    simp [Process, hreg]
  | true =>
    cases hgo : env.getRegisteredTaskOk with
    | false =>
      left
      simp [Process, hreg, hgo]
    | true =>
      cases hre : env.setStateReceivedErr with
      | some e =>
        left
        simp [Process, hreg, hgo, hre, Event.isSendChord, Event.isTriggerChordCAS]
      | none =>
        cases hb : env.bindErr with
        | some e =>
          left
          cases hf : env.setStateFailureErr <;>
            simp [Process, taskFailed, hreg, hgo, hre, hb, hf, Event.isSendChord,
              Event.isTriggerChordCAS]
        | none =>
          cases hst : env.setStateStartedErr with
          | some e =>
            left
            simp [Process, hreg, hgo, hre, hb, hst, Event.isSendChord, Event.isTriggerChordCAS]
          | none =>
            cases hcall : env.callResult with
            | error e =>
              left
              by_cases hrc : sig.retryCount > 0
              · cases hrt : env.setStateRetryErr <;>
                  simp [Process, taskRetry, hreg, hgo, hre, hb, hst, hcall, hrc, hrt,
                    Event.isSendChord, Event.isTriggerChordCAS]
              · cases hf : env.setStateFailureErr <;>
                  simp [Process, taskFailed, hreg, hgo, hre, hb, hst, hcall, hrc, hf,
                    Event.isSendChord, Event.isTriggerChordCAS]
            | ok rs =>
              right
              refine ⟨rs, rfl, ?_, ?_⟩ <;>
                simp [Process, hreg, hgo, hre, hb, hst, hcall, Event.isSendChord,
                  Event.isTriggerChordCAS]

lemma countChord_process_le_one (env : Env) (sig : Signature) :
    countChord (Process env sig).1 ≤ 1 := by
  rcases process_chord_cases env sig with ⟨h, _⟩ | ⟨rs, _, h, _⟩
  · omega
  · rw [h]
    exact (taskSucceeded_chord_spec env sig rs).1

lemma countChord_process_loss (env : Env) (sig : Signature)
    (h : env.triggerChord = Except.ok false) : countChord (Process env sig).1 = 0 := by
  rcases process_chord_cases env sig with ⟨h0, _⟩ | ⟨rs, _, heq, _⟩
  · exact h0
  · rw [heq]
    by_contra hc
    have hpos : 0 < countChord (taskSucceeded env sig rs).1 := Nat.pos_of_ne_zero hc
    have hwin := ((taskSucceeded_chord_spec env sig rs).2.2 hpos).1
    rw [h] at hwin
    simp at hwin

lemma countChord_process_noCAS (env : Env) (sig : Signature)
    (h : hasCAS (Process env sig).1 = false) : countChord (Process env sig).1 = 0 := by
  rcases process_chord_cases env sig with ⟨h0, _⟩ | ⟨rs, _, heq, hcaseq⟩
  · exact h0
  · rw [heq]
    refine (taskSucceeded_chord_spec env sig rs).2.1 ?_
    rw [← hcaseq]
    exact h

lemma countChord_process_pos (env : Env) (sig : Signature)
    (h : 0 < countChord (Process env sig).1) :
    env.triggerChord = Except.ok true ∧
    ∃ sts, env.groupTaskStates = Except.ok sts ∧ ∀ st ∈ sts, st.IsSuccess = true := by
  rcases process_chord_cases env sig with ⟨h0, _⟩ | ⟨rs, _, heq, _⟩
  · omega
  · refine (taskSucceeded_chord_spec env sig rs).2.2 ?_
    rw [← heq]
    exact h

lemma countChord_runChord_true (steps : List (Env × Signature)) :
    countChord (runChord true steps) = 0 := by
  induction steps with
  | nil => rfl
  | cons p rest ih =>
    obtain ⟨env, sig⟩ := p
    simp only [runChord, countChord_append]
    have h1 : countChord (Process { env with triggerChord := Except.ok (!true) } sig).1 = 0 :=
      countChord_process_loss _ _ rfl
    rw [h1]
    simpa using ih

lemma countChord_runChord_le_one (steps : List (Env × Signature)) :
    countChord (runChord false steps) ≤ 1 := by
  induction steps with
  | nil => simp [runChord]
  | cons p rest ih =>
    obtain ⟨env, sig⟩ := p
    simp only [runChord, countChord_append, Bool.false_or]
    cases hcas : hasCAS (Process { env with triggerChord := Except.ok (!false) } sig).1 with
    | false =>
      have h0 := countChord_process_noCAS _ _ hcas
      rw [h0]
      simpa using ih
    | true =>
      have hle := countChord_process_le_one { env with triggerChord := Except.ok (!false) } sig
      have h0 := countChord_runChord_true rest
      omega

/-! ### Trace shape lemmas for the straight-line paths -/

@[simp] lemma stateWrites_purgeOpt (b : Bool) (g : String) :
    stateWrites (if b then [Event.purgeGroupMeta g] else []) = [] := by
  cases b <;> rfl

@[simp] lemma successSends_purgeOpt (b : Bool) (g : String) :
    successSends (if b then [Event.purgeGroupMeta g] else []) = [] := by
  cases b <;> rfl

@[simp] lemma errorSends_purgeOpt (b : Bool) (g : String) :
    errorSends (if b then [Event.purgeGroupMeta g] else []) = [] := by
  cases b <;> rfl

lemma taskFailed_ok (env : Env) (sig : Signature) (e : String)
    (hf : env.setStateFailureErr = none) :
    taskFailed env sig e =
      (Event.setStateFailure sig.uuid e :: errorCallbackEvents sig e, none) := by
  simp [taskFailed, hf]

lemma taskRetry_ok (env : Env) (sig : Signature) (hrt : env.setStateRetryErr = none) :
    taskRetry env sig =
      ([Event.setStateRetry sig.uuid,
        Event.sendRetry (sig.withRetryFields (sig.retryCount - 1)
          (FibonacciNext sig.retryTimeout)
          (some (env.now + (FibonacciNext sig.retryTimeout : Int))))],
        (env.sendTaskErr).map ProcessError.sendTask) := by
  simp [taskRetry, hrt]

lemma stateWrites_taskFailed (env : Env) (sig : Signature) (e : String) :
    stateWrites (taskFailed env sig e).1 = [TaskStateName.failure] := by
  cases hf : env.setStateFailureErr <;> simp [taskFailed, hf, Event.stateWrite]

lemma stateWrites_taskRetry (env : Env) (sig : Signature) :
    stateWrites (taskRetry env sig).1 = [TaskStateName.retry] := by
  cases hrt : env.setStateRetryErr <;> simp [taskRetry, hrt, Event.stateWrite]

lemma countSendRetry_taskFailed (env : Env) (sig : Signature) (e : String) :
    countSendRetry (taskFailed env sig e).1 = 0 := by
  cases hf : env.setStateFailureErr <;> simp [taskFailed, hf, Event.isSendRetry]

lemma taskSucceeded_shape (env : Env) (sig : Signature) (rs : List TaskResult)
    (hsu : env.setStateSuccessErr = none) :
    ∃ tail, (taskSucceeded env sig rs).1 =
        Event.setStateSuccess sig.uuid rs :: (successCallbackEvents sig rs ++ tail) ∧
      stateWrites tail = [] ∧ successSends tail = [] ∧ errorSends tail = [] := by
  by_cases hg : sig.groupUUID = ""
  · exact ⟨[], by simp [taskSucceeded, hsu, hg], rfl, rfl, rfl⟩
  · cases hgc : env.groupCompleted with
    | error e => exact ⟨[], by simp [taskSucceeded, hsu, hg, hgc], rfl, rfl, rfl⟩
    | ok gcb =>
      cases gcb with
      | false => exact ⟨[], by simp [taskSucceeded, hsu, hg, hgc], rfl, rfl, rfl⟩
      | true =>
        cases hcb : sig.chordCallback with
        | none =>
          refine ⟨if env.hasAMQPBackend then [Event.purgeGroupMeta sig.groupUUID] else [],
            ?_, by simp, by simp, by simp⟩
          simp [taskSucceeded, hsu, hg, hgc, hcb]
        | some cb =>
          cases htc : env.triggerChord with
          | error e =>
            refine ⟨Event.triggerChordCAS sig.groupUUID ::
              (if env.hasAMQPBackend then [Event.purgeGroupMeta sig.groupUUID] else []),
              ?_, by simp [Event.stateWrite], by simp [successSends_cons], by simp [errorSends_cons]⟩
            simp [taskSucceeded, hsu, hg, hgc, hcb, htc]
          | ok win =>
            cases win with
            | false =>
              refine ⟨Event.triggerChordCAS sig.groupUUID ::
                (if env.hasAMQPBackend then [Event.purgeGroupMeta sig.groupUUID] else []),
                ?_, by simp [Event.stateWrite], by simp [successSends_cons],
                by simp [errorSends_cons]⟩
              simp [taskSucceeded, hsu, hg, hgc, hcb, htc]
            | true =>
              cases hgts : env.groupTaskStates with
              | error e =>
                refine ⟨Event.triggerChordCAS sig.groupUUID ::
                  (if env.hasAMQPBackend then [Event.purgeGroupMeta sig.groupUUID] else []),
                  ?_, by simp [Event.stateWrite], by simp [successSends_cons],
                  by simp [errorSends_cons]⟩
                simp [taskSucceeded, hsu, hg, hgc, hcb, htc, hgts]
              | ok sts =>
                cases hgather : gatherChord cb sts with
                | none =>
                  refine ⟨Event.triggerChordCAS sig.groupUUID ::
                    (if env.hasAMQPBackend then [Event.purgeGroupMeta sig.groupUUID] else []),
                    ?_, by simp [Event.stateWrite], by simp [successSends_cons],
                    by simp [errorSends_cons]⟩
                  simp [taskSucceeded, hsu, hg, hgc, hcb, htc, hgts, hgather]
                | some cb2 =>
                  refine ⟨Event.triggerChordCAS sig.groupUUID :: Event.sendChord cb2 ::
                    (if env.hasAMQPBackend then [Event.purgeGroupMeta sig.groupUUID] else []),
                    ?_, by simp [Event.stateWrite], by simp [successSends_cons],
                    by simp [errorSends_cons]⟩
                  simp [taskSucceeded, hsu, hg, hgc, hcb, htc, hgts, hgather]

lemma stateWrites_taskSucceeded (env : Env) (sig : Signature) (rs : List TaskResult) :
    stateWrites (taskSucceeded env sig rs).1 = [TaskStateName.success] := by
  cases hsu : env.setStateSuccessErr with
  | some e => simp [taskSucceeded, hsu, Event.stateWrite]
  | none =>
    obtain ⟨tail, htr, hw, _, _⟩ := taskSucceeded_shape env sig rs hsu
    rw [htr]
    simp [Event.stateWrite, hw]

lemma successSends_taskSucceeded (env : Env) (sig : Signature) (rs : List TaskResult)
    (hsu : env.setStateSuccessErr = none) :
    successSends (taskSucceeded env sig rs).1 =
      sig.onSuccess.map fun t =>
        if sig.immutable then t else t.withArgs (t.args ++ rs.map resultToArg) := by
  obtain ⟨tail, htr, _, hs, _⟩ := taskSucceeded_shape env sig rs hsu
  rw [htr]
  simp [hs, successSends_successCallbackEvents]

lemma process_registered_prefix (env : Env) (sig : Signature)
    (hreg : env.isTaskRegistered = true) (hgo : env.getRegisteredTaskOk = true)
    (hre : env.setStateReceivedErr = none) (hb : env.bindErr = none)
    (hst : env.setStateStartedErr = none) :
    Process env sig =
      (match env.callResult with
       | Except.error e =>
         if sig.retryCount > 0 then
           (Event.setStateReceived sig.uuid :: Event.setStateStarted sig.uuid ::
             (taskRetry env sig).1, (taskRetry env sig).2)
         else
           (Event.setStateReceived sig.uuid :: Event.setStateStarted sig.uuid ::
             (taskFailed env sig e).1, (taskFailed env sig e).2)
       | Except.ok rs =>
         (Event.setStateReceived sig.uuid :: Event.setStateStarted sig.uuid ::
           (taskSucceeded env sig rs).1, (taskSucceeded env sig rs).2)) := by
  cases hcall : env.callResult with
  | error e => simp [Process, hreg, hgo, hre, hb, hst, hcall]
  | ok rs => simp [Process, hreg, hgo, hre, hb, hst, hcall]

lemma process_bindFail (env : Env) (sig : Signature) (e : String)
    (hreg : env.isTaskRegistered = true) (hgo : env.getRegisteredTaskOk = true)
    (hre : env.setStateReceivedErr = none) (hb : env.bindErr = some e) :
    Process env sig =
      (Event.setStateReceived sig.uuid :: (taskFailed env sig e).1,
        some (ProcessError.bind e)) := by
  simp [Process, hreg, hgo, hre, hb]

@[simp] lemma countChord_purgeOpt (b : Bool) (g : String) :
    countChord (if b then [Event.purgeGroupMeta g] else []) = 0 := by
  cases b <;> rfl

/-! ### Concrete fixtures -/

/-- An environment in which every external call succeeds: the task is
registered, all backend writes succeed, binding succeeds, the call returns one
result, the signature is not a group member. -/
def env0 : Env :=
  { isTaskRegistered := true
    getRegisteredTaskOk := true
    setStateReceivedErr := none
    setStateStartedErr := none
    setStateRetryErr := none
    setStateSuccessErr := none
    setStateFailureErr := none
    bindErr := none
    callResult := Except.ok [TaskResult.mk "int" "5"]
    now := 100
    sendTaskErr := none
    groupCompleted := Except.ok false
    hasAMQPBackend := false
    triggerChord := Except.ok false
    groupTaskStates := Except.ok [] }

/-- A plain delivered signature with no successors and no group. -/
def sig0 : Signature :=
  Signature.mk "u1" "add" [Arg.mk "int" "2", Arg.mk "int" "3"] 0 0 none false "" 0 [] [] none

/-- A successor callback signature. -/
def cbLog : Signature :=
  Signature.mk "u-log" "log" [Arg.mk "string" "got"] 0 0 none false "" 0 [] [] none

/-- A chord callback signature. -/
def chordCb : Signature :=
  Signature.mk "u-chord" "sum" [] 0 0 none false "" 0 [] [] none

/-- A group-member signature carrying a chord callback. -/
def sigGroup : Signature :=
  Signature.mk "u2" "add" [] 0 0 none false "g1" 3 [] [] (some chordCb)

/-- A signature with RetryCount 2 and RetryTimeout 1. -/
def sigRetry : Signature :=
  Signature.mk "u3" "flaky" [] 2 1 none false "" 0 [] [] none

/-- A signature with RetryCount 5 and an OnError successor. -/
def sigBind : Signature :=
  Signature.mk "u5" "add" [Arg.mk "string" "oops"] 5 0 none false "" 0 [] [cbLog] none

/-! ### Claims -/

/-- Claim C1: for every group, the chord callback is publish-dispatched at
most once across all deliveries sharing the group's ChordTriggered flag
(modelled by `runChord`, which implements the backend's compare-and-set), and
only when every gathered member state is SUCCESS; a worker that loses the
TriggerChord compare-and-set, or that finds a gathered member state
non-SUCCESS, does not send the chord callback. -/
theorem chord_dispatched_at_most_once :
    (∀ steps : List (Env × Signature), countChord (runChord false steps) ≤ 1) ∧
    (∀ env sig, env.triggerChord = Except.ok false → countChord (Process env sig).1 = 0) ∧
    (∀ env sig sts, env.groupTaskStates = Except.ok sts →
      (∃ st ∈ sts, st.IsSuccess = false) → countChord (Process env sig).1 = 0) ∧
    (∀ env sig, 0 < countChord (Process env sig).1 →
      env.triggerChord = Except.ok true ∧
      ∃ sts, env.groupTaskStates = Except.ok sts ∧ ∀ st ∈ sts, st.IsSuccess = true) := by
  refine ⟨countChord_runChord_le_one, countChord_process_loss, ?_, countChord_process_pos⟩
  intro env sig sts hgts hbad
  obtain ⟨st, hmem, hns⟩ := hbad
  by_contra hc
  have hpos : 0 < countChord (Process env sig).1 := Nat.pos_of_ne_zero hc
  obtain ⟨_, sts2, hgts2, hall⟩ := countChord_process_pos env sig hpos
  rw [hgts] at hgts2
  injection hgts2 with hs
  subst hs
  have := hall st hmem
  rw [this] at hns
  cases hns

/-- An all-success environment in which this worker loses the chord CAS. -/
def envLoss : Env :=
  { env0 with
    callResult := Except.ok []
    groupCompleted := Except.ok true
    triggerChord := Except.ok false }

/-- An environment in which this worker wins the chord CAS but gathers a
FAILURE member state. -/
def envBadState : Env :=
  { env0 with
    callResult := Except.ok []
    groupCompleted := Except.ok true
    triggerChord := Except.ok true
    groupTaskStates := Except.ok [TaskState.mk TaskStateName.failure []] }

theorem chord_dispatched_at_most_once_witness :
    countChord (Process envLoss sigGroup).1 = 0 ∧
    countChord (Process envBadState sigGroup).1 = 0 :=
  ⟨chord_dispatched_at_most_once.2.1 envLoss sigGroup (by rfl),
   chord_dispatched_at_most_once.2.2.1 envBadState sigGroup
     [TaskState.mk TaskStateName.failure []] (by rfl)
     ⟨TaskState.mk TaskStateName.failure [], by simp, by rfl⟩⟩

/-- Claim C3: the retry back-off is a pure total function with
`FibonacciNext 0 = 1`; for every positive `cur` it returns the next Fibonacci
number strictly greater than `cur`; and iterating it `k ≥ 1` times from 0
yields the (k+1)-th Fibonacci number. -/
theorem fibonacci_next_spec :
    FibonacciNext 0 = 1 ∧
    (∀ cur : Nat, 0 < cur → ∃ m, FibonacciNext cur = Nat.fib m ∧ cur < Nat.fib m ∧
      ∀ j, cur < Nat.fib j → Nat.fib m ≤ Nat.fib j) ∧
    (∀ k : Nat, 1 ≤ k → FibonacciNext^[k] 0 = Nat.fib (k + 1)) := by
  refine ⟨by decide, ?_, FibonacciNext_iterate⟩
  intro cur _
  obtain ⟨m, hm, hcur, hmin⟩ := FibonacciNext_spec cur
  refine ⟨m, hm, hcur, ?_⟩
  intro j hj
  by_cases h : j < m
  · exact absurd hj (by have := hmin j h; omega)
  · exact Nat.fib_mono (by omega)

theorem fibonacci_next_spec_witness :
    (∃ m, FibonacciNext 4 = Nat.fib m ∧ 4 < Nat.fib m ∧
      ∀ j, 4 < Nat.fib j → Nat.fib m ≤ Nat.fib j) ∧
    FibonacciNext^[5] 0 = Nat.fib 6 :=
  ⟨fibonacci_next_spec.2.1 4 (by decide), fibonacci_next_spec.2.2 5 (by decide)⟩

/-- Claim C7: on failure, every OnError successor is dispatched with a first
argument of type "string" holding the error message, and the successor's own
original arguments follow that injected argument in their original order. -/
theorem on_error_arg_injection (env : Env) (sig : Signature) (e : String)
    (hf : env.setStateFailureErr = none) :
    errorSends (taskFailed env sig e).1 =
      sig.onError.map fun t => t.withArgs (Arg.mk "string" e :: t.args) := by
  rw [taskFailed_ok env sig e hf]
  simp [errorSends_cons, errorSends_errorCallbackEvents]

theorem on_error_arg_injection_witness :
    errorSends (taskFailed env0 sigBind "boom").1 =
      sigBind.onError.map fun t => t.withArgs (Arg.mk "string" "boom" :: t.args) :=
  on_error_arg_injection env0 sigBind "boom" rfl

/-- Claim C8: a delivery whose task name misses the registry (either on the
membership check or on the lookup) is acked silently: `Process` returns
success to the broker, writes no backend state, and publishes nothing. -/
theorem unknown_task_acked_silently (env : Env) (sig : Signature)
    (h : env.isTaskRegistered = false ∨ env.getRegisteredTaskOk = false) :
    Process env sig = ([], none) := by
  rcases h with h | h
  · simp [Process, h]
  · cases hreg : env.isTaskRegistered <;> simp [Process, hreg, h]

/-- An environment whose registry does not know the delivered task. -/
def envUnknown : Env := { env0 with isTaskRegistered := false }

theorem unknown_task_acked_silently_witness : Process envUnknown sig0 = ([], none) :=
  unknown_task_acked_silently envUnknown sig0 (Or.inl rfl)

/-- Claim C2: a delivered signature whose call errors terminates in FAILURE
(never RETRY) when RetryCount = 0; when RetryCount > 0, RETRY is recorded and
the signature is republished with RetryCount decremented by exactly one,
RetryTimeout advanced to the Fibonacci successor of the previous
RetryTimeout, and ETA set to the clock reading plus the new RetryTimeout in
seconds (hence no earlier than that sum). -/
theorem call_error_retry_or_failure (env : Env) (sig : Signature) (e : String)
    (hreg : env.isTaskRegistered = true) (hgo : env.getRegisteredTaskOk = true)
    (hre : env.setStateReceivedErr = none) (hb : env.bindErr = none)
    (hst : env.setStateStartedErr = none) (hcall : env.callResult = Except.error e) :
    (sig.retryCount = 0 →
      stateWrites (Process env sig).1 =
        [TaskStateName.received, TaskStateName.started, TaskStateName.failure]) ∧
    (sig.retryCount > 0 → env.setStateRetryErr = none →
      ∃ sig2, (Process env sig).1 =
          [Event.setStateReceived sig.uuid, Event.setStateStarted sig.uuid,
            Event.setStateRetry sig.uuid, Event.sendRetry sig2] ∧
        sig2.uuid = sig.uuid ∧
        sig2.retryCount = sig.retryCount - 1 ∧
        sig2.retryTimeout = FibonacciNext sig.retryTimeout ∧
        sig2.eta = some (env.now + (sig2.retryTimeout : Int)) ∧
        ∀ t, sig2.eta = some t → env.now + (FibonacciNext sig.retryTimeout : Int) ≤ t) := by
  have hp := process_registered_prefix env sig hreg hgo hre hb hst
  rw [hcall] at hp
  constructor
  · intro h0
    have hrc : ¬ sig.retryCount > 0 := by omega
    rw [hp]
    simp [hrc, Event.stateWrite, stateWrites_taskFailed]
  · intro hrc hrt
    refine ⟨sig.withRetryFields (sig.retryCount - 1) (FibonacciNext sig.retryTimeout)
      (some (env.now + (FibonacciNext sig.retryTimeout : Int))), ?_, by simp, by simp,
      by simp, by simp, ?_⟩
    · rw [hp]
      simp [hrc, taskRetry_ok env sig hrt]
    · intro t ht
      simp at ht
      omega

/-- An environment in which the task call errors. -/
def envCallErr : Env := { env0 with callResult := Except.error "boom" }

theorem call_error_retry_or_failure_witness :
    stateWrites (Process envCallErr sig0).1 =
      [TaskStateName.received, TaskStateName.started, TaskStateName.failure] ∧
    ∃ sig2, (Process envCallErr sigRetry).1 =
        [Event.setStateReceived sigRetry.uuid, Event.setStateStarted sigRetry.uuid,
          Event.setStateRetry sigRetry.uuid, Event.sendRetry sig2] ∧
      sig2.uuid = sigRetry.uuid ∧
      sig2.retryCount = sigRetry.retryCount - 1 ∧
      sig2.retryTimeout = FibonacciNext sigRetry.retryTimeout ∧
      sig2.eta = some (envCallErr.now + (sig2.retryTimeout : Int)) ∧
      ∀ t, sig2.eta = some t →
        envCallErr.now + (FibonacciNext sigRetry.retryTimeout : Int) ≤ t :=
  ⟨(call_error_retry_or_failure envCallErr sig0 "boom" rfl rfl rfl rfl rfl (by rfl)).1 rfl,
   (call_error_retry_or_failure envCallErr sigRetry "boom" rfl rfl rfl rfl rfl (by rfl)).2
     (by decide) rfl⟩

/-- Claim C4: a delivery whose argument binding fails records FAILURE
immediately and fans out the OnError callbacks, without recording RETRY and
without republishing the signature, regardless of its RetryCount. -/
theorem bind_failure_no_retry (env : Env) (sig : Signature) (e : String)
    (hreg : env.isTaskRegistered = true) (hgo : env.getRegisteredTaskOk = true)
    (hre : env.setStateReceivedErr = none) (hb : env.bindErr = some e)
    (hf : env.setStateFailureErr = none) :
    (Process env sig).1 =
      Event.setStateReceived sig.uuid :: Event.setStateFailure sig.uuid e ::
        errorCallbackEvents sig e ∧
    stateWrites (Process env sig).1 = [TaskStateName.received, TaskStateName.failure] ∧
    countSendRetry (Process env sig).1 = 0 := by
  have hp := process_bindFail env sig e hreg hgo hre hb
  rw [taskFailed_ok env sig e hf] at hp
  rw [hp]
  refine ⟨rfl, ?_, ?_⟩
  · simp [Event.stateWrite]
  · simp [Event.isSendRetry]

/-- An environment whose argument binding fails. -/
def envBind : Env := { env0 with bindErr := some "invalid args" }

theorem bind_failure_no_retry_witness :
    (Process envBind sigBind).1 =
      Event.setStateReceived sigBind.uuid :: Event.setStateFailure sigBind.uuid "invalid args" ::
        errorCallbackEvents sigBind "invalid args" ∧
    stateWrites (Process envBind sigBind).1 =
      [TaskStateName.received, TaskStateName.failure] ∧
    countSendRetry (Process envBind sigBind).1 = 0 :=
  bind_failure_no_retry envBind sigBind "invalid args" rfl rfl rfl (by rfl) rfl

/-- The per-delivery state-write ordering asserted by the claim: the backend
writes for the delivery are RECEIVED, then STARTED, then exactly one of
SUCCESS, FAILURE or RETRY. -/
def processorWritesInOrder (env : Env) (sig : Signature) : Prop :=
  ∃ X, (X = TaskStateName.success ∨ X = TaskStateName.failure ∨ X = TaskStateName.retry) ∧
    stateWrites (Process env sig).1 = [TaskStateName.received, TaskStateName.started, X]

/-- Claim C5 counterexample: a delivery whose argument binding fails writes
RECEIVED and then FAILURE with no STARTED write in between, so the claimed
ordering does not hold of every delivery processed by Process. -/
theorem state_write_order_counterexample : ¬ processorWritesInOrder envBind sigBind := by
  unfold processorWritesInOrder
  rintro ⟨X, _, h⟩
  have hw : stateWrites (Process envBind sigBind).1 =
      [TaskStateName.received, TaskStateName.failure] := by decide
  rw [hw] at h
  simp at h

/-- Claim C5 amended: for every delivery whose registered task function is
actually invoked (registry hit, RECEIVED write, argument binding and STARTED
write all succeed), the backend state writes occur in the order RECEIVED,
then STARTED, then exactly one of SUCCESS, FAILURE or RETRY. -/
theorem state_write_order_amended (env : Env) (sig : Signature)
    (hreg : env.isTaskRegistered = true) (hgo : env.getRegisteredTaskOk = true)
    (hre : env.setStateReceivedErr = none) (hb : env.bindErr = none)
    (hst : env.setStateStartedErr = none) : processorWritesInOrder env sig := by
  unfold processorWritesInOrder
  have hp := process_registered_prefix env sig hreg hgo hre hb hst
  cases hcall : env.callResult with
  | error e =>
    rw [hcall] at hp
    by_cases hrc : sig.retryCount > 0
    · refine ⟨TaskStateName.retry, by simp, ?_⟩
      rw [hp]
      simp [hrc, Event.stateWrite, stateWrites_taskRetry]
    · refine ⟨TaskStateName.failure, by simp, ?_⟩
      rw [hp]
      simp [hrc, Event.stateWrite, stateWrites_taskFailed]
  | ok rs =>
    rw [hcall] at hp
    refine ⟨TaskStateName.success, by simp, ?_⟩
    rw [hp]
    simp [Event.stateWrite, stateWrites_taskSucceeded]

theorem state_write_order_amended_witness : processorWritesInOrder env0 sig0 :=
  state_write_order_amended env0 sig0 rfl rfl rfl rfl rfl

/-- Claim C6: on success, when the parent is not immutable every OnSuccess
successor is dispatched with the parent's results appended to its arguments
in order; when the parent is immutable no successor's arguments are extended. -/
theorem on_success_arg_threading (env : Env) (sig : Signature) (rs : List TaskResult)
    (hreg : env.isTaskRegistered = true) (hgo : env.getRegisteredTaskOk = true)
    (hre : env.setStateReceivedErr = none) (hb : env.bindErr = none)
    (hst : env.setStateStartedErr = none) (hcall : env.callResult = Except.ok rs)
    (hsu : env.setStateSuccessErr = none) :
    (sig.immutable = false →
      successSends (Process env sig).1 =
        sig.onSuccess.map fun t => t.withArgs (t.args ++ rs.map resultToArg)) ∧
    (sig.immutable = true → successSends (Process env sig).1 = sig.onSuccess) := by
  have hp := process_registered_prefix env sig hreg hgo hre hb hst
  rw [hcall] at hp
  have hss : successSends (Process env sig).1 = successSends (taskSucceeded env sig rs).1 := by
    rw [hp]
    simp [successSends_cons]
  rw [hss, successSends_taskSucceeded env sig rs hsu]
  constructor
  · intro him
    simp [him]
  · intro him
    simp [him]

/-- A mutable parent with one OnSuccess successor. -/
def succParentMut : Signature :=
  Signature.mk "u4" "square" [Arg.mk "int" "3"] 0 0 none false "" 0 [cbLog] [] none

/-- An immutable parent with one OnSuccess successor. -/
def succParentImm : Signature :=
  Signature.mk "u4" "square" [Arg.mk "int" "3"] 0 0 none true "" 0 [cbLog] [] none

/-- An environment whose call returns a single result. -/
def envSquare : Env := { env0 with callResult := Except.ok [TaskResult.mk "int" "9"] }

theorem on_success_arg_threading_witness :
    successSends (Process envSquare succParentMut).1 =
      succParentMut.onSuccess.map
        (fun t => t.withArgs (t.args ++ ([TaskResult.mk "int" "9"]).map resultToArg)) ∧
    successSends (Process envSquare succParentImm).1 = succParentImm.onSuccess :=
  ⟨(on_success_arg_threading envSquare succParentMut [TaskResult.mk "int" "9"]
      rfl rfl rfl rfl rfl (by rfl) rfl).1 rfl,
   (on_success_arg_threading envSquare succParentImm [TaskResult.mk "int" "9"]
      rfl rfl rfl rfl rfl (by rfl) rfl).2 rfl⟩

/-- Claim C9: when GroupTaskStates errors after this worker has already won
the TriggerChord compare-and-set, the processor swallows the backend error
and returns success to the caller, and the chord callback is not dispatched. -/
theorem group_states_error_swallowed (env : Env) (sig : Signature) (rs : List TaskResult)
    (e : String) (cb : Signature)
    (hreg : env.isTaskRegistered = true) (hgo : env.getRegisteredTaskOk = true)
    (hre : env.setStateReceivedErr = none) (hb : env.bindErr = none)
    (hst : env.setStateStartedErr = none) (hcall : env.callResult = Except.ok rs)
    (hsu : env.setStateSuccessErr = none) (hg : ¬ sig.groupUUID = "")
    (hgc : env.groupCompleted = Except.ok true) (hcb : sig.chordCallback = some cb)
    (htc : env.triggerChord = Except.ok true) (hgts : env.groupTaskStates = Except.error e) :
    (Process env sig).2 = none ∧ countChord (Process env sig).1 = 0 := by
  have hp := process_registered_prefix env sig hreg hgo hre hb hst
  rw [hcall] at hp
  constructor
  · rw [hp]
    simp [taskSucceeded, hsu, hg, hgc, hcb, htc, hgts]
  · rw [hp]
    simp [taskSucceeded, hsu, hg, hgc, hcb, htc, hgts, Event.isSendChord]

/-- An environment in which this worker wins the chord CAS and the
GroupTaskStates query then fails. -/
def envGtsErr : Env :=
  { env0 with
    callResult := Except.ok []
    groupCompleted := Except.ok true
    triggerChord := Except.ok true
    groupTaskStates := Except.error "backend down" }

theorem group_states_error_swallowed_witness :
    (Process envGtsErr sigGroup).2 = none ∧ countChord (Process envGtsErr sigGroup).1 = 0 :=
  group_states_error_swallowed envGtsErr sigGroup [] "backend down" chordCb
    rfl rfl rfl rfl rfl (by rfl) rfl (by decide) (by rfl) (by rfl) (by rfl) (by rfl)

/-- Claim C10: a bind failure returns the non-nil bind error to the broker
adapter even though the FAILURE write was already issued, whereas a call
error with RetryCount = 0 returns nil once the FAILURE write and OnError
fan-out complete. -/
theorem broker_ack_semantics :
    (∀ env sig (e : String), env.isTaskRegistered = true → env.getRegisteredTaskOk = true →
      env.setStateReceivedErr = none → env.bindErr = some e →
      env.setStateFailureErr = none →
      (Process env sig).2 = some (ProcessError.bind e) ∧
      stateWrites (Process env sig).1 = [TaskStateName.received, TaskStateName.failure]) ∧
    (∀ env sig (e : String), env.isTaskRegistered = true → env.getRegisteredTaskOk = true →
      env.setStateReceivedErr = none → env.bindErr = none →
      env.setStateStartedErr = none → env.callResult = Except.error e →
      sig.retryCount = 0 → env.setStateFailureErr = none →
      (Process env sig).2 = none ∧
      stateWrites (Process env sig).1 =
        [TaskStateName.received, TaskStateName.started, TaskStateName.failure]) := by
  constructor
  · intro env sig e hreg hgo hre hb hf
    have hp := process_bindFail env sig e hreg hgo hre hb
    rw [taskFailed_ok env sig e hf] at hp
    rw [hp]
    exact ⟨rfl, by simp [Event.stateWrite]⟩
  · intro env sig e hreg hgo hre hb hst hcall h0 hf
    have hp := process_registered_prefix env sig hreg hgo hre hb hst
    rw [hcall] at hp
    have hrc : ¬ sig.retryCount > 0 := by omega
    rw [hp]
    constructor
    · simp [hrc, taskFailed_ok env sig e hf]
    · simp [hrc, Event.stateWrite, stateWrites_taskFailed]

theorem broker_ack_semantics_witness :
    ((Process envBind sigBind).2 = some (ProcessError.bind "invalid args") ∧
      stateWrites (Process envBind sigBind).1 =
        [TaskStateName.received, TaskStateName.failure]) ∧
    ((Process envCallErr sig0).2 = none ∧
      stateWrites (Process envCallErr sig0).1 =
        [TaskStateName.received, TaskStateName.started, TaskStateName.failure]) :=
  ⟨broker_ack_semantics.1 envBind sigBind "invalid args" rfl rfl rfl (by rfl) rfl,
   broker_ack_semantics.2 envCallErr sig0 "boom" rfl rfl rfl rfl rfl (by rfl) rfl rfl⟩

end Machinery
